import Mathlib

/-!
Shallow embedding of `bot/bot.py` (hongell/wot_clanreservebot): the
credential lifecycle (`WargamingAuth`), the reserve tracker and the
poll-and-notify cycle (`DiscordBot.fetch_and_post_reserves`,
`DiscordBot.cleanup_expired_reserves`), and the OAuth callback handler
(`DiscordBot.handle_oauth_callback`).

Python strings are modelled as `List Char`, Python `set` as `Finset`,
epoch times as `Int`.  Operations that can raise are modelled with
`Option` (`none` = an exception was raised).  Network and chat I/O are
modelled by passing the outcome of each external call as an explicit
parameter and recording the observable side effects as a list of
`Event`s.
-/

abbrev Str := List Char

def str (s : String) : Str := s.data

/-- Python truthiness of an optional string (`None` and `""` are falsy). -/
def tokTruthy : Option Str → Bool
  | none => false
  | some s => !s.isEmpty

/-- Python truthiness of an optional number (`None` and `0` are falsy). -/
def numTruthy : Option Int → Bool
  | none => false
  | some x => decide (x ≠ 0)

/-- Helper for Python `s.split(sep)` with a one-character separator:
returns the chunk before the first `sep` and the list of the remaining
chunks. -/
def pySplitAux (sep : Char) : Str → Str × List Str
  | [] => ([], [])
  | c :: rest =>
    if c = sep then ([], (pySplitAux sep rest).1 :: (pySplitAux sep rest).2)
    else (c :: (pySplitAux sep rest).1, (pySplitAux sep rest).2)

/-- Python `s.split(sep)` with a one-character separator. -/
def pySplit (sep : Char) (s : Str) : List Str :=
  (pySplitAux sep s).1 :: (pySplitAux sep s).2

/-- The decimal digit characters, as Python renders them. -/
def digitChar : Nat → Char
  | 0 => '0'
  | 1 => '1'
  | 2 => '2'
  | 3 => '3'
  | 4 => '4'
  | 5 => '5'
  | 6 => '6'
  | 7 => '7'
  | 8 => '8'
  | 9 => '9'
  | _ => '*'

/-- Little-endian digit list of `n` (fuel-indexed so that the kernel can
evaluate it). -/
def natDigitsRevAux : Nat → Nat → List Nat
  | 0, _ => []
  | fuel + 1, n => if n = 0 then [] else n % 10 :: natDigitsRevAux fuel (n / 10)

/-- Decimal rendering of a natural number, as produced by the Python
f-string `f"{n}"`. -/
def natToDigits (n : Nat) : Str :=
  if n = 0 then ['0'] else ((natDigitsRevAux n n).map digitChar).reverse

/-- Python `int(s)` restricted to nonnegative decimal-digit strings; on
any other input `int` raises `ValueError`, modelled as `none`. -/
def pyInt? (s : Str) : Option Nat :=
  if s ≠ [] ∧ s.all Char.isDigit then
    some (s.foldl (fun a c => 10 * a + (c.toNat - 48)) 0)
  else none

/-- Value of a little-endian digit list. -/
def digitsValLE : List Nat → Nat
  | [] => 0
  | d :: ds => d + 10 * digitsValLE ds

/-- Reserve-id construction, `bot.py:363` — `reserve_id = f"{name}_{stock_info['activated_at']}"`. -/
def mkReserveId (name : Str) (t : Nat) : Str :=
  name ++ '_' :: natToDigits t

/-- Timestamp extraction, `bot.py:225` — `int(reserve_id.split('_')[1])`: the second chunk of
the split is parsed as an integer; a missing chunk (IndexError) or a
non-numeric chunk (ValueError) raises, modelled as `none`. -/
def parseActivatedAt (id : Str) : Option Nat :=
  match (pySplit '_' id)[1]? with
  | some seg => pyInt? seg
  | none => none

/-- The reserve-expiry test of `bot.py:225`:
`int(reserve_id.split('_')[1]) < current_time - 7200`. -/
def expiredPred (now : Int) (id : Str) : Bool :=
  match parseActivatedAt id with
  | some t => decide ((t : Int) < now - 7200)
  | none => false

/-- Embedding of `DiscordBot.cleanup_expired_reserves` (`bot.py:221-230`): builds the
set of expired ids, and only when it is nonempty removes it from the
state and saves the state file (the returned `Bool` records the save).
If `int(...)` raises on any element the whole set comprehension raises
before any mutation, modelled as `none`. -/
def cleanup_expired_reserves (state : Finset Str) (now : Int) :
    Option (Finset Str × Bool) :=
  if ∀ id ∈ state, (parseActivatedAt id).isSome then
    if (state.filter fun id => expiredPred now id = true).Nonempty then
      some (state \ state.filter (fun id => expiredPred now id = true), true)
    else some (state, false)
  else none

/-- Credential state of `WargamingAuth` (`bot.py:102-109`). -/
structure AuthState where
  access_token : Option Str
  refresh_token : Option Str
  expires_at : Option Int
  deriving DecidableEq

/-- Outcome of the remote `wot/auth/prolongate/` call made by
`refresh_access_token`: a parsed JSON body with `status == "ok"` and the
three data fields, a parsed body with any other status, or a raised
transport/JSON error. -/
inductive RefreshResponse where
  | ok (access refresh : Str) (lifetime : Int)
  | errStatus
  | transportError

/-- Embedding of `WargamingAuth.refresh_access_token` (`bot.py:150-166`): on
`status == "ok"` it overwrites all three credential fields, with
`expires_at = time.time() + data["data"]["expires_at"]`, and saves them
(the `Bool` records the `save_tokens` call); otherwise it raises and
changes nothing, modelled as `none`. -/
def refresh_access_token (now : Int) :
    RefreshResponse → Option (AuthState × Bool)
  | .ok a r l => some (⟨some a, some r, some (now + l)⟩, true)
  | .errStatus => none
  | .transportError => none

/-- Result of `WargamingAuth.get_valid_token`: the returned value, the
credential state afterwards, whether a refresh network call was made,
and whether the token file was written. -/
structure TokenResult where
  token : Option Str
  auth : AuthState
  refreshed : Bool
  persisted : Bool
  deriving DecidableEq

/-- Embedding of `WargamingAuth.get_valid_token` (`bot.py:135-148`): returns the
stored token unchanged while it is fresh (more than 300 s of life
left), otherwise attempts a refresh when a refresh token is present,
absorbing any refresh failure and returning `None`. -/
def get_valid_token (st : AuthState) (now : Int) (resp : RefreshResponse) :
    TokenResult :=
  if tokTruthy st.access_token = true ∧ numTruthy st.expires_at = true ∧
      now < st.expires_at.getD 0 - 300 then
    ⟨st.access_token, st, false, false⟩
  else if tokTruthy st.refresh_token = true then
    match refresh_access_token now resp with
    | some (st', saved) => ⟨st'.access_token, st', true, saved⟩
    | none => ⟨none, st, true, false⟩
  else ⟨none, st, false, false⟩

/-- One element of a reserve's `in_stock` array, with the fields the
source reads (`bot.py:359-378`). -/
structure StockInfo where
  status : Str
  activated_at : Nat
  active_till : Nat
  level : Nat
  bonus_values : List (Nat × Str)
  deriving DecidableEq, Inhabited

/-- One entry of the API's `data` array: a reserve with its `in_stock`
list, of which the source reads only element `[0]`. -/
structure Reserve where
  name : Str
  in_stock : List StockInfo
  deriving DecidableEq, Inhabited

def activeStatus : Str := str "active"

/-- The loop body of `bot.py:357-379`: for each reserve, read
`in_stock[0]` (IndexError on an empty list, modelled as `none`); for
active ones add the id to `current_active` and, when the id is not in
the previous state, append the entry to `newly_activated`. -/
def diffLoop (prev : Finset Str) :
    List Reserve → Finset Str → List (Str × StockInfo) →
      Option (Finset Str × List (Str × StockInfo))
  | [], cur, acc => some (cur, acc)
  | r :: rest, cur, acc =>
    match r.in_stock with
    | [] => none
    | si :: _ =>
      if si.status = activeStatus then
        diffLoop prev rest (insert (mkReserveId r.name si.activated_at) cur)
          (if mkReserveId r.name si.activated_at ∈ prev then acc
           else acc ++ [(r.name, si)])
      else diffLoop prev rest cur acc

/-- The diff step of `DiscordBot.fetch_and_post_reserves`
(`bot.py:352-379`): starting from `current_active = set()` and
`newly_activated = []`. -/
def diff (prev : Finset Str) (reserves : List Reserve) :
    Option (Finset Str × List (Str × StockInfo)) :=
  diffLoop prev reserves ∅ []

/-- Modelled from the spec's words (§4.2 `diff`): the snapshot filtered
to its active entries (an entry is its name paired with its first stock
record). -/
def activeOf (reserves : List Reserve) : List (Str × StockInfo) :=
  reserves.filterMap fun r =>
    r.in_stock.head?.bind fun si =>
      if si.status = activeStatus then some (r.name, si) else none

/-- Modelled from the spec's words (§4.2 `diff`): the set of ids of the
active entries. -/
def currentActiveSpec (reserves : List Reserve) : Finset Str :=
  ((activeOf reserves).map fun e => mkReserveId e.1 e.2.activated_at).toFinset

/-- Modelled from the spec's words (§4.2 `diff`): the active entries
whose id is not in the previous state, in snapshot order. -/
def newlyActivatedSpec (prev : Finset Str) (reserves : List Reserve) :
    List (Str × StockInfo) :=
  (activeOf reserves).filter fun e =>
    decide (mkReserveId e.1 e.2.activated_at ∉ prev)

/-- Configuration read from the environment (`bot.py:22-28`). -/
structure BotConfig where
  application_id : Str
  clan_id : Str
  redirect_uri : Str
  deriving DecidableEq

/-- Embedding of `DiscordBot.start_oauth_flow` (`bot.py:274-289`): the authorization
URL built from the configured application id and redirect URI
(percent-encoding of the parameter values is elided). -/
def start_oauth_flow (cfg : BotConfig) : Str :=
  str "https://api.worldoftanks.eu/wot/auth/login/?application_id="
    ++ cfg.application_id
    ++ str "&redirect_uri=" ++ cfg.redirect_uri
    ++ str "&display=page&nofollow=0&expires_at=1736027938&response_type=code token"

/-- In-memory state of `DiscordBot`: the credential and the announced
reserve-id set (`last_active_reserves`). -/
structure BotState where
  auth : AuthState
  last_active_reserves : Finset Str
  deriving DecidableEq

/-- Observable side effects of one poll cycle or callback, in order. -/
inductive Event where
  | adminExpiryWarn (url : Str)
  | tokenSave
  | adminNeedsReauth (url : Str)
  | reserveSaveCleanup
  | reserveSaveDiff
  | announce (newly : List (Str × StockInfo))
  | logError
  deriving DecidableEq

/-- Outcome of the snapshot request (`bot.py:349-350`): a response whose
body parsed as JSON (with its HTTP status code, whether `"data"` is
present, and the entries), a response whose body failed to parse
(`.json()` raises), or a raised transport error. -/
inductive FetchOutcome where
  | response (status_code : Nat) (hasData : Bool) (reserves : List Reserve)
  | badJson
  | transportError

/-- The events of the cycle's opening steps (`bot.py:327-334`): the
near-expiry admin warning (sent when `expires_at` is truthy and less than
86400 s away, with a fresh authorization URL) followed by a token-file
write when `get_valid_token` refreshed successfully. -/
def authEvents (cfg : BotConfig) (st : BotState) (now : Int)
    (rresp : RefreshResponse) : List Event :=
  (if numTruthy st.auth.expires_at = true ∧ st.auth.expires_at.getD 0 - now < 86400
   then [Event.adminExpiryWarn (start_oauth_flow cfg)] else [])
  ++ (if (get_valid_token st.auth now rresp).persisted then [Event.tokenSave] else [])

/-- Embedding of `DiscordBot.fetch_and_post_reserves` (`bot.py:324-395`), one cycle.
External outcomes are parameters: `rresp` is what the token-refresh
endpoint would answer, `fetch` the snapshot request's outcome,
`channelFound` whether `get_channel` finds the configured channel and
`sendOk` whether `channel.send` succeeds.  The whole body runs under
`try/except Exception`, so a raise at any step ends the cycle with a
`logError` event and keeps all state changes made before the raise. -/
def fetch_and_post_reserves (cfg : BotConfig) (st : BotState) (now : Int)
    (rresp : RefreshResponse) (fetch : FetchOutcome)
    (channelFound sendOk : Bool) : BotState × List Event :=
  let tr := get_valid_token st.auth now rresp
  let ev0 := authEvents cfg st now rresp
  if tokTruthy tr.token = false then
    (⟨tr.auth, st.last_active_reserves⟩,
     ev0 ++ [.adminNeedsReauth (start_oauth_flow cfg)])
  else
    match cleanup_expired_reserves st.last_active_reserves now with
    | none => (⟨tr.auth, st.last_active_reserves⟩, ev0 ++ [.logError])
    | some (res1, cleaned) =>
      let ev1 := ev0 ++ (if cleaned then [Event.reserveSaveCleanup] else [])
      match fetch with
      | .transportError => (⟨tr.auth, res1⟩, ev1 ++ [.logError])
      | .badJson => (⟨tr.auth, res1⟩, ev1 ++ [.logError])
      | .response code hasData reserves =>
        if code = 200 ∧ hasData = true then
          match diff res1 reserves with
          | none => (⟨tr.auth, res1⟩, ev1 ++ [.logError])
          | some (current, newly) =>
            let res2 := if current ≠ res1 then current else res1
            let ev2 := ev1 ++ (if current ≠ res1 then [Event.reserveSaveDiff] else [])
            if newly ≠ [] then
              if channelFound then
                if sendOk then (⟨tr.auth, res2⟩, ev2 ++ [.announce newly])
                else (⟨tr.auth, res2⟩, ev2 ++ [.logError])
              else (⟨tr.auth, res2⟩, ev2)
            else (⟨tr.auth, res2⟩, ev2)
        else (⟨tr.auth, res1⟩, ev1)

/-- Query parameters of the OAuth redirect (`bot.py:294-299`); each may
be absent from the query string. -/
structure CallbackQuery where
  status : Option Str
  access_token : Option Str
  refresh_token : Option Str
  account_id : Option Str
  nickname : Option Str
  expires_at : Option Str
  deriving DecidableEq

/-- HTTP response of the callback handler. -/
inductive CbResponse where
  | success (nickname : Option Str)
  | failed400
  | error500
  deriving DecidableEq

/-- Result of `handle_oauth_callback`: the HTTP response, the credential
and reserve state afterwards, whether the token file was written, the
admin message sent (if any) and whether an immediate poll cycle was
awaited. -/
structure CbResult where
  response : CbResponse
  auth : AuthState
  reserves : Finset Str
  tokenSaved : Bool
  adminMsg : Option Str
  pollTriggered : Bool
  deriving DecidableEq

/-- The admin notification text of `bot.py:315` (Python renders an
absent nickname as `None`). -/
def authorizedMsg (nickname : Option Str) : Str :=
  str "Successfully authorized bot for WoT account: " ++ nickname.getD (str "None")

/-- Embedding of `DiscordBot.handle_oauth_callback` (`bot.py:291-322`).  Validation
failure answers 400 and changes nothing.  Otherwise the three credential
fields are assigned in order; if `int(expires_at)` raises, the handler
answers 500 with `access_token`/`refresh_token` already overwritten but
`expires_at` and the token file untouched.  On success the credential is
saved and, only when the configured channel is found, the admin message
is sent and one poll cycle is awaited; the success response is returned
either way. -/
def handle_oauth_callback (bot : BotState) (q : CallbackQuery)
    (channelFound : Bool) (now : Int) : CbResult :=
  if q.status ≠ some (str "ok") ∨ tokTruthy q.access_token = false then
    ⟨.failed400, bot.auth, bot.last_active_reserves, false, none, false⟩
  else
    if tokTruthy q.expires_at = true then
      match pyInt? (q.expires_at.getD []) with
      | some v =>
        ⟨.success q.nickname, ⟨q.access_token, q.refresh_token, some (v : Int)⟩,
         bot.last_active_reserves, true,
         if channelFound then some (authorizedMsg q.nickname) else none,
         channelFound⟩
      | none =>
        ⟨.error500, ⟨q.access_token, q.refresh_token, bot.auth.expires_at⟩,
         bot.last_active_reserves, false, none, false⟩
    else
      ⟨.success q.nickname, ⟨q.access_token, q.refresh_token, some (now + 86400)⟩,
       bot.last_active_reserves, true,
       if channelFound then some (authorizedMsg q.nickname) else none,
       channelFound⟩

/-- Concrete snapshot entry from spec §8: reserve "Gold", level 3,
activated at 1000, active till 5000, bonus 2x for random, active. -/
def siGold : StockInfo := ⟨str "active", 1000, 5000, 3, [(2, str "random")]⟩

def rGold : Reserve := ⟨str "Gold", [siGold]⟩

/-- A fully valid callback query: `status=ok`, a token, a refresh token,
a nickname and a numeric expiry. -/
def qOk : CallbackQuery :=
  ⟨some (str "ok"), some (str "T"), some (str "R"), none, some (str "Nick"),
   some (str "1000")⟩

def cfg0 : BotConfig := ⟨str "app", str "clan", str "uri"⟩

/-- A bot holding a fresh token and an empty announced set. -/
def st8 : BotState := ⟨⟨some (str "T"), none, some 1000000000⟩, ∅⟩

/-- A bot holding a fresh token and one stale announced id. -/
def stPoll : BotState :=
  ⟨⟨some (str "T"), none, some 1000000000⟩, {mkReserveId (str "Old") 1}⟩

lemma natDigitsRevAux_zero (fuel : Nat) : natDigitsRevAux fuel 0 = [] := by
  cases fuel <;> simp [natDigitsRevAux]

lemma natDigitsRevAux_lt (fuel : Nat) :
    ∀ n d, d ∈ natDigitsRevAux fuel n → d < 10 := by
  induction fuel with
  | zero => intro n d hd; simp [natDigitsRevAux] at hd
  | succ fuel ih =>
    intro n d hd
    by_cases h0 : n = 0
    · simp [natDigitsRevAux, h0] at hd
    · simp only [natDigitsRevAux, if_neg h0, List.mem_cons] at hd
      rcases hd with h1 | h2
      · subst h1; exact Nat.mod_lt _ (by norm_num)
      · exact ih _ _ h2

lemma natDigitsRevAux_val (fuel : Nat) :
    ∀ n, n ≤ fuel → digitsValLE (natDigitsRevAux fuel n) = n := by
  induction fuel with
  | zero =>
    intro n h
    interval_cases n
    simp [natDigitsRevAux, digitsValLE]
  | succ fuel ih =>
    intro n h
    by_cases h0 : n = 0
    · simp [natDigitsRevAux, h0, digitsValLE]
    · have hlt : n / 10 < n := Nat.div_lt_self (Nat.pos_of_ne_zero h0) (by norm_num)
      have hdiv : n / 10 ≤ fuel := by omega
      simp only [natDigitsRevAux, if_neg h0, digitsValLE, ih _ hdiv]
      omega

lemma natDigitsRevAux_ne_nil {n : Nat} (h0 : n ≠ 0) :
    natDigitsRevAux n n ≠ [] := by
  cases n with
  | zero => exact absurd rfl h0
  | succ m => simp [natDigitsRevAux]

lemma digitChar_toNat {d : Nat} (hd : d < 10) : (digitChar d).toNat - 48 = d := by
  interval_cases d <;> rfl

lemma digitChar_isDigit {d : Nat} (hd : d < 10) : (digitChar d).isDigit = true := by
  interval_cases d <;> rfl

lemma digitChar_ne_underscore {d : Nat} (hd : d < 10) : digitChar d ≠ '_' := by
  interval_cases d <;> decide

lemma foldl_digits (l : List Nat) (hl : ∀ d ∈ l, d < 10) :
    ∀ a : Nat,
      ((l.map digitChar).reverse).foldl (fun a c => 10 * a + (c.toNat - 48)) a
        = a * 10 ^ l.length + digitsValLE l := by
  induction l with
  | nil => intro a; simp [digitsValLE]
  | cons d ds ih =>
    intro a
    have hds : ∀ x ∈ ds, x < 10 := fun x hx => hl x (by simp [hx])
    simp only [List.map_cons, List.reverse_cons, List.foldl_append, List.foldl_cons,
      List.foldl_nil, ih hds a]
    rw [digitChar_toNat (hl d (by simp))]
    simp only [digitsValLE, List.length_cons, pow_succ]
    ring

lemma natToDigits_no_underscore (n : Nat) : '_' ∉ natToDigits n := by
  unfold natToDigits
  split
  · decide
  · intro h
    rw [List.mem_reverse, List.mem_map] at h
    obtain ⟨d, hd, heq⟩ := h
    exact digitChar_ne_underscore (natDigitsRevAux_lt n n d hd) heq

lemma pyInt_natToDigits (n : Nat) : pyInt? (natToDigits n) = some n := by
  unfold natToDigits pyInt?
  by_cases h0 : n = 0
  · subst h0; decide
  · rw [if_neg h0]
    have hlt : ∀ d ∈ natDigitsRevAux n n, d < 10 := natDigitsRevAux_lt n n
    rw [if_pos]
    · rw [foldl_digits _ hlt 0, natDigitsRevAux_val n n le_rfl]
      simp
    · constructor
      · simp [natDigitsRevAux_ne_nil h0]
      · rw [List.all_eq_true]
        intro c hc
        rw [List.mem_reverse, List.mem_map] at hc
        obtain ⟨d, hd, heq⟩ := hc
        subst heq
        exact digitChar_isDigit (hlt d hd)

lemma pySplitAux_no_sep {sep : Char} {s : Str} (h : sep ∉ s) :
    pySplitAux sep s = (s, []) := by
  induction s with
  | nil => rfl
  | cons c rest ih =>
    have hc : ¬ c = sep := fun hcs => h (by simp [hcs])
    have hrest : sep ∉ rest := fun hm => h (by simp [hm])
    simp [pySplitAux, hc, ih hrest]

lemma pySplitAux_append_sep {sep : Char} {a : Str} (b : Str) (h : sep ∉ a) :
    pySplitAux sep (a ++ sep :: b) = (a, pySplit sep b) := by
  induction a with
  | nil => simp [pySplitAux, pySplit]
  | cons c rest ih =>
    have hc : ¬ c = sep := fun hcs => h (by simp [hcs])
    have hrest : sep ∉ rest := fun hm => h (by simp [hm])
    simp [pySplitAux, hc, ih hrest]

lemma pySplitAux_fst (sep : Char) (s : Str) :
    (pySplitAux sep s).1 = s.takeWhile (fun c => decide (c ≠ sep)) := by
  induction s with
  | nil => rfl
  | cons c rest ih =>
    by_cases hc : c = sep <;> simp [pySplitAux, hc, List.takeWhile_cons, ih]

/-- With an underscore-free name, splitting a generated id on `'_'`
yields exactly the name and the decimal digits of `activated_at`. -/
lemma pySplit_mkReserveId {name : Str} (t : Nat) (h : '_' ∉ name) :
    pySplit '_' (mkReserveId name t) = [name, natToDigits t] := by
  unfold mkReserveId pySplit
  rw [pySplitAux_append_sep _ h]
  unfold pySplit
  rw [pySplitAux_no_sep (natToDigits_no_underscore t)]

/-- On an id whose name component is underscore-free, the source's
`int(reserve_id.split('_')[1])` recovers the true activation time. -/
lemma parseActivatedAt_mk {name : Str} (t : Nat) (h : '_' ∉ name) :
    parseActivatedAt (mkReserveId name t) = some t := by
  unfold parseActivatedAt
  rw [pySplit_mkReserveId t h]
  simp [pyInt_natToDigits]

/-- When the name itself contains an underscore (`name = a ++ '_' :: b`
with `a` underscore-free), the parsed chunk is the text between the
first and the second underscore of the id, i.e. a piece of the name
region `b ++ '_' :: digits`, not the activation time. -/
lemma parseActivatedAt_underscore_name {a : Str} (b : Str) (t : Nat) (h : '_' ∉ a) :
    parseActivatedAt (mkReserveId (a ++ '_' :: b) t)
      = pyInt? ((b ++ '_' :: natToDigits t).takeWhile (fun c => decide (c ≠ '_'))) := by
  unfold parseActivatedAt mkReserveId
  rw [List.append_assoc]
  simp only [List.cons_append]
  unfold pySplit
  rw [pySplitAux_append_sep _ h]
  simp [pySplit, pySplitAux_fst]

/-- Cleanup writes the state file exactly when it removed an id. -/
lemma cleanup_save_iff_changed {state : Finset Str} {now : Int} {r : Finset Str}
    {b : Bool} (h : cleanup_expired_reserves state now = some (r, b)) :
    b = true ↔ r ≠ state := by
  unfold cleanup_expired_reserves at h
  split at h
  · set expired := state.filter (fun id => expiredPred now id = true) with hexp
    by_cases hne : expired.Nonempty
    · rw [if_pos hne] at h
      obtain ⟨hr, hb⟩ := Prod.mk.injEq .. ▸ Option.some.injEq .. ▸ h
      subst hr hb
      simp only [true_iff]
      intro hcontra
      rw [Finset.sdiff_eq_self_iff_disjoint] at hcontra
      have : expired = ∅ := by
        apply Finset.eq_empty_of_forall_not_mem
        intro x hx
        exact (Finset.disjoint_right.mp hcontra) hx (Finset.mem_filter.mp hx).1
      exact hne.ne_empty this
    · rw [if_neg hne] at h
      obtain ⟨hr, hb⟩ := Prod.mk.injEq .. ▸ Option.some.injEq .. ▸ h
      subst hr hb
      simp
  · exact absurd h (by simp)

lemma diffLoop_eq (prev : Finset Str) (l : List Reserve)
    (h : ∀ r ∈ l, r.in_stock ≠ []) :
    ∀ cur acc, diffLoop prev l cur acc
      = some (cur ∪ currentActiveSpec l, acc ++ newlyActivatedSpec prev l) := by
  induction l with
  | nil =>
    intro cur acc
    simp [diffLoop, currentActiveSpec, newlyActivatedSpec, activeOf]
  | cons r rest ih =>
    intro cur acc
    have hrest : ∀ x ∈ rest, x.in_stock ≠ [] := fun x hx => h x (by simp [hx])
    obtain ⟨si, tl, hsi⟩ : ∃ si tl, r.in_stock = si :: tl := by
      cases hst : r.in_stock with
      | nil => exact absurd hst (h r (by simp))
      | cons a b => exact ⟨a, b, rfl⟩
    by_cases hact : si.status = activeStatus
    · have hhd : activeOf (r :: rest)
          = (r.name, si) :: activeOf rest := by
        simp [activeOf, hsi, hact]
      by_cases hmem : mkReserveId r.name si.activated_at ∈ prev
      · rw [show diffLoop prev (r :: rest) cur acc
            = diffLoop prev rest (insert (mkReserveId r.name si.activated_at) cur) acc by
              simp [diffLoop, hsi, hact, hmem]]
        rw [ih hrest]
        simp only [Option.some.injEq, Prod.mk.injEq]
        constructor
        · rw [Finset.insert_union]
          simp [currentActiveSpec, hhd, Finset.union_insert]
        · simp [newlyActivatedSpec, hhd, hmem]
      · rw [show diffLoop prev (r :: rest) cur acc
            = diffLoop prev rest (insert (mkReserveId r.name si.activated_at) cur)
                (acc ++ [(r.name, si)]) by
              simp [diffLoop, hsi, hact, hmem]]
        rw [ih hrest]
        simp only [Option.some.injEq, Prod.mk.injEq]
        constructor
        · rw [Finset.insert_union]
          simp [currentActiveSpec, hhd, Finset.union_insert]
        · simp [newlyActivatedSpec, hhd, hmem]
    · have hhd : activeOf (r :: rest) = activeOf rest := by
        simp [activeOf, hsi, hact]
      rw [show diffLoop prev (r :: rest) cur acc = diffLoop prev rest cur acc by
            simp [diffLoop, hsi, hact]]
      rw [ih hrest]
      simp [currentActiveSpec, newlyActivatedSpec, hhd]

lemma diff_eq_spec (prev : Finset Str) (reserves : List Reserve)
    (h : ∀ r ∈ reserves, r.in_stock ≠ []) :
    diff prev reserves
      = some (currentActiveSpec reserves, newlyActivatedSpec prev reserves) := by
  rw [diff, diffLoop_eq prev reserves h ∅ []]
  simp

/-- C1: `diff` filters the snapshot to its `status == "active"` entries,
returns `currentActive` as exactly the set of their ids
(name concatenated with `activated_at`) and `newlyActivated` as exactly
the active entries whose id is not in the previous state, in snapshot
order; in particular with zero active entries both results are empty.
(Hypothesis: every snapshot entry has a nonempty `in_stock` array — an
empty one makes the source loop raise `IndexError` instead.) -/
theorem diff_matches_spec (prev : Finset Str) (reserves : List Reserve)
    (h : ∀ r ∈ reserves, r.in_stock ≠ []) :
    diff prev reserves
      = some (currentActiveSpec reserves, newlyActivatedSpec prev reserves)
    ∧ (activeOf reserves = [] → diff prev reserves = some (∅, [])) := by
  refine ⟨diff_eq_spec prev reserves h, fun hz => ?_⟩
  rw [diff_eq_spec prev reserves h]
  rw [currentActiveSpec, newlyActivatedSpec, hz]
  simp

/-- C1 witness: the spec-§8 "Gold" scenario against an empty previous
state. -/
theorem diff_matches_spec_witness :
    diff ∅ [rGold] = some (currentActiveSpec [rGold], newlyActivatedSpec ∅ [rGold])
    ∧ (activeOf [rGold] = [] → diff ∅ [rGold] = some (∅, [])) :=
  diff_matches_spec ∅ [rGold] (by decide)

/-- C9: diff is idempotent across cycles — feeding the first run's
`currentActive` back as the previous state over an unchanged snapshot
yields an empty `newlyActivated` (and the same `currentActive`). -/
theorem diff_idempotent (prev : Finset Str) (reserves : List Reserve)
    (h : ∀ r ∈ reserves, r.in_stock ≠ []) (c : Finset Str)
    (nw : List (Str × StockInfo)) (hd : diff prev reserves = some (c, nw)) :
    diff c reserves = some (c, []) := by
  rw [diff_eq_spec prev reserves h, Option.some.injEq, Prod.mk.injEq] at hd
  obtain ⟨hc, -⟩ := hd
  subst hc
  rw [diff_eq_spec _ reserves h]
  have hempty : newlyActivatedSpec (currentActiveSpec reserves) reserves = [] := by
    rw [newlyActivatedSpec, List.filter_eq_nil_iff]
    intro e he
    simp only [decide_eq_true_eq, Decidable.not_not]
    rw [currentActiveSpec, List.mem_toFinset, List.mem_map]
    exact ⟨e, he, rfl⟩
  rw [hempty]

/-- C9 witness: the "Gold" snapshot; the second run announces nothing. -/
theorem diff_idempotent_witness :
    diff (currentActiveSpec [rGold]) [rGold] = some (currentActiveSpec [rGold], []) :=
  diff_idempotent ∅ [rGold] (by decide) (currentActiveSpec [rGold])
    (newlyActivatedSpec ∅ [rGold]) (diff_eq_spec ∅ [rGold] (by decide))

/-- C2 counterexample: at `activatedAt = now - 7200` exactly, the claim
demands removal, but the code's strict `<` at `bot.py:225` retains the
id: with `now = 7300` the id `"A_100"` satisfies
`activatedAt ≤ now - 7200`, yet cleanup keeps the state unchanged and
reports no write. -/
theorem cleanup_boundary_retained :
    ((100 : Int) ≤ 7300 - 7200)
    ∧ cleanup_expired_reserves {mkReserveId (str "A") 100} 7300
        = some ({mkReserveId (str "A") 100}, false) := by
  exact ⟨by decide, by decide⟩

/-- C2 amended: for every state of ids built from underscore-free names,
cleanup removes exactly the ids whose `activatedAt` is strictly less
than `now - 7200` and retains every other id (writing the state file iff
some id was removed). -/
theorem cleanup_removes_strictly_older (S : Finset (Str × Nat)) (now : Int)
    (h : ∀ p ∈ S, '_' ∉ p.1) :
    cleanup_expired_reserves (S.image fun p => mkReserveId p.1 p.2) now
      = some ((S.filter fun p => ¬((p.2 : Int) < now - 7200)).image
                (fun p => mkReserveId p.1 p.2),
              decide (S.filter fun p => ((p.2 : Int) < now - 7200)).Nonempty) := by
  have hparse : ∀ p ∈ S, parseActivatedAt (mkReserveId p.1 p.2) = some p.2 :=
    fun p hp => parseActivatedAt_mk p.2 (h p hp)
  have hall : ∀ id ∈ S.image fun p => mkReserveId p.1 p.2,
      (parseActivatedAt id).isSome := by
    intro id hid
    obtain ⟨p, hp, rfl⟩ := Finset.mem_image.mp hid
    rw [hparse p hp]
    rfl
  have hpred : ∀ p ∈ S,
      (expiredPred now (mkReserveId p.1 p.2) = true) ↔ ((p.2 : Int) < now - 7200) := by
    intro p hp
    simp only [expiredPred, hparse p hp, decide_eq_true_eq]
  have hfilter : ((S.image fun p => mkReserveId p.1 p.2).filter
        fun id => expiredPred now id = true)
      = (S.filter fun p => ((p.2 : Int) < now - 7200)).image
          fun p => mkReserveId p.1 p.2 := by
    rw [Finset.filter_image, Finset.filter_congr hpred]
  have hfilterNot : ((S.image fun p => mkReserveId p.1 p.2).filter
        fun id => ¬ (expiredPred now id = true))
      = (S.filter fun p => ¬((p.2 : Int) < now - 7200)).image
          fun p => mkReserveId p.1 p.2 := by
    rw [Finset.filter_image, Finset.filter_congr (fun p hp => not_congr (hpred p hp))]
  unfold cleanup_expired_reserves
  rw [if_pos hall]
  by_cases hne : ((S.image fun p => mkReserveId p.1 p.2).filter
      fun id => expiredPred now id = true).Nonempty
  · rw [if_pos hne]
    have hne' : (S.filter fun p => ((p.2 : Int) < now - 7200)).Nonempty := by
      rw [hfilter] at hne
      exact Finset.image_nonempty.mp hne
    rw [Option.some.injEq, Prod.mk.injEq]
    refine ⟨?_, by simp [hne']⟩
    rw [← Finset.filter_not, hfilterNot]
  · rw [if_neg hne]
    have hempty : (S.filter fun p => ((p.2 : Int) < now - 7200)) = ∅ := by
      rw [hfilter] at hne
      rw [← Finset.not_nonempty_iff_eq_empty]
      exact fun hc => hne (hc.image _)
    have hkeep : (S.filter fun p => ¬((p.2 : Int) < now - 7200)) = S := by
      apply Finset.filter_true_of_mem
      intro p hp
      have := Finset.filter_eq_empty_iff.mp hempty hp
      exact this
    rw [Option.some.injEq, Prod.mk.injEq, hkeep, hempty]
    refine ⟨rfl, by simp⟩

/-- C2 amended witness: state `{"A_100", "B_5000"}` at `now = 7301`
removes exactly `"A_100"` (`100 < 101`) and writes the state. -/
theorem cleanup_removes_strictly_older_witness :
    cleanup_expired_reserves
        (({(str "A", 100), (str "B", 5000)} : Finset (Str × Nat)).image
          fun p => mkReserveId p.1 p.2) 7301
      = some (((({(str "A", 100), (str "B", 5000)} : Finset (Str × Nat)).filter
                  fun p => ¬((p.2 : Int) < 7301 - 7200)).image
                fun p => mkReserveId p.1 p.2),
              decide ((({(str "A", 100), (str "B", 5000)} : Finset (Str × Nat)).filter
                  fun p => ((p.2 : Int) < 7301 - 7200)).Nonempty)) :=
  cleanup_removes_strictly_older {(str "A", 100), (str "B", 5000)} 7301 (by decide)

/-- C10: cleanup parses the `activatedAt` component of an id as the text
between the first and second underscore of the id string.
(1) For an underscore-free name this recovers the true `activated_at`.
(2) For a name `a ++ '_' :: b` whose first underscore follows `a`, the
parsed chunk is the piece of `b ++ '_' :: digits` before the next
underscore — text taken from the name region, not the activation time.
(3) When that chunk is not a decimal number the whole cleanup raises
(modelled `none`), leaving the rest of the cleanup unexecuted and the
state untouched.
(4) When it is a number from the name, an id can be purged contrary to
the `activatedAt ≤ now - 7200` rule: `"A_1_9000"` (true
`activated_at = 9000`) is purged at `now = 9000` although
`¬(9000 ≤ 9000 - 7200)`. -/
theorem cleanup_underscore_parsing :
    (∀ (name : Str) (t : Nat), '_' ∉ name →
        parseActivatedAt (mkReserveId name t) = some t)
    ∧ (∀ (a b : Str) (t : Nat), '_' ∉ a →
        parseActivatedAt (mkReserveId (a ++ '_' :: b) t)
          = pyInt? ((b ++ '_' :: natToDigits t).takeWhile fun c => decide (c ≠ '_')))
    ∧ cleanup_expired_reserves {mkReserveId (str "A_B") 5} 9000 = none
    ∧ (cleanup_expired_reserves {mkReserveId (str "A_1") 9000} 9000
          = some (∅, true)
        ∧ ¬((9000 : Int) ≤ 9000 - 7200)) := by
  refine ⟨fun name t h => parseActivatedAt_mk t h,
          fun a b t h => parseActivatedAt_underscore_name b t h, by decide, by decide,
          by decide⟩

/-- C10 witness: an underscore-free name round-trips its activation
time through the id. -/
theorem cleanup_underscore_parsing_witness :
    ('_' ∉ str "Gold")
    ∧ parseActivatedAt (mkReserveId (str "Gold") 1000) = some 1000 :=
  ⟨by decide, cleanup_underscore_parsing.1 (str "Gold") 1000 (by decide)⟩

/-- C3: `get_valid_token` returns the stored access token unchanged,
performing no refresh and no write, whenever an access token exists
(is truthy) and `now < expiresAt - 300`; otherwise a present refresh
token leads to a refresh attempt that returns the new token on success,
while a refresh failure is absorbed (never escapes) and yields `None`
with the credential unchanged, as does an absent refresh token. -/
theorem get_valid_token_contract (st : AuthState) (now : Int) (e : Int)
    (he : st.expires_at = some e) (hnow : 0 ≤ now) (resp : RefreshResponse) :
    (tokTruthy st.access_token = true → now < e - 300 →
        get_valid_token st now resp = ⟨st.access_token, st, false, false⟩)
    ∧ (¬(tokTruthy st.access_token = true ∧ now < e - 300) →
        tokTruthy st.refresh_token = true →
        (∀ a r l, resp = .ok a r l →
            get_valid_token st now resp
              = ⟨some a, ⟨some a, some r, some (now + l)⟩, true, true⟩)
        ∧ ((resp = .errStatus ∨ resp = .transportError) →
            get_valid_token st now resp = ⟨none, st, true, false⟩))
    ∧ (¬(tokTruthy st.access_token = true ∧ now < e - 300) →
        tokTruthy st.refresh_token = false →
        get_valid_token st now resp = ⟨none, st, false, false⟩) := by
  have hcode : (tokTruthy st.access_token = true ∧ numTruthy st.expires_at = true ∧
        now < st.expires_at.getD 0 - 300)
      ↔ (tokTruthy st.access_token = true ∧ now < e - 300) := by
    rw [he]
    simp only [Option.getD_some, numTruthy, decide_eq_true_eq]
    constructor
    · rintro ⟨h1, -, h3⟩
      exact ⟨h1, h3⟩
    · rintro ⟨h1, h3⟩
      exact ⟨h1, by omega, h3⟩
  refine ⟨?_, ?_, ?_⟩
  · intro h1 h2
    unfold get_valid_token
    rw [if_pos (hcode.mpr ⟨h1, h2⟩)]
  · intro hnf hrt
    unfold get_valid_token
    rw [if_neg (fun hc => hnf (hcode.mp hc)), if_pos hrt]
    constructor
    · rintro a r l rfl
      simp [refresh_access_token]
    · rintro (rfl | rfl) <;> simp [refresh_access_token]
  · intro hnf hrf
    unfold get_valid_token
    rw [if_neg (fun hc => hnf (hcode.mp hc)), if_neg (by simp [hrf])]

/-- C3 witness: a fresh token is returned unchanged with no refresh. -/
theorem get_valid_token_contract_witness :
    get_valid_token ⟨some (str "T"), some (str "R"), some 1000000⟩ 0 .errStatus
      = ⟨some (str "T"), ⟨some (str "T"), some (str "R"), some 1000000⟩, false, false⟩ :=
  (get_valid_token_contract ⟨some (str "T"), some (str "R"), some 1000000⟩ 0 1000000
      rfl (by decide) .errStatus).1 (by decide) (by decide)

/-- C4: `refresh_access_token` is atomic: a `status == "ok"` response
replaces all three credential fields, with
`expires_at = now + server-provided lifetime`, and persists them; an
error status or a transport error raises (modelled `none`), so the
caller's prior credential stays completely unchanged, and a subsequent
`get_valid_token` holding an expired token then returns `None` with the
credential still unchanged. -/
theorem refresh_access_token_atomic (st : AuthState) (now : Int) :
    (∀ a r l, refresh_access_token now (.ok a r l)
        = some (⟨some a, some r, some (now + l)⟩, true))
    ∧ refresh_access_token now .errStatus = none
    ∧ refresh_access_token now .transportError = none
    ∧ (∀ e, st.expires_at = some e → e - 300 ≤ now →
        (get_valid_token st now .errStatus).token = none
        ∧ (get_valid_token st now .errStatus).auth = st) := by
  refine ⟨fun a r l => rfl, rfl, rfl, ?_⟩
  intro e he hle
  have hnf : ¬(tokTruthy st.access_token = true ∧ numTruthy st.expires_at = true ∧
      now < st.expires_at.getD 0 - 300) := by
    rw [he]
    simp only [Option.getD_some]
    rintro ⟨-, -, h3⟩
    omega
  unfold get_valid_token
  rw [if_neg hnf]
  by_cases hrt : tokTruthy st.refresh_token = true
  · rw [if_pos hrt]
    simp [refresh_access_token]
  · rw [if_neg hrt]
    exact ⟨rfl, rfl⟩

/-- C4 witness: a successful refresh at `now = 50` with lifetime 100,
and a failing refresh leaving an expired credential yielding `None`. -/
theorem refresh_access_token_atomic_witness :
    refresh_access_token 50 (.ok (str "A") (str "B") 100)
      = some (⟨some (str "A"), some (str "B"), some 150⟩, true)
    ∧ (get_valid_token ⟨some (str "T"), some (str "R"), some 200⟩ 50 .errStatus).token
        = none :=
  ⟨(refresh_access_token_atomic ⟨some (str "T"), some (str "R"), some 200⟩ 50).1
      (str "A") (str "B") 100,
   ((refresh_access_token_atomic ⟨some (str "T"), some (str "R"), some 200⟩ 50).2.2.2
      200 rfl (by decide)).1⟩

/-- C5 counterexample: a callback that passes validation, processed
while the configured channel is not found (`get_channel` returns
`None`): the claim demands an admin notification and an immediate poll
cycle, but `bot.py:313-316` guards both behind `if channel:` and skips
them — while still answering success. -/
theorem callback_no_channel_counterexample :
    (qOk.status = some (str "ok") ∧ tokTruthy qOk.access_token = true)
    ∧ (handle_oauth_callback ⟨⟨none, none, none⟩, ∅⟩ qOk false 0).adminMsg = none
    ∧ (handle_oauth_callback ⟨⟨none, none, none⟩, ∅⟩ qOk false 0).pollTriggered = false
    ∧ (handle_oauth_callback ⟨⟨none, none, none⟩, ∅⟩ qOk false 0).response
        = .success qOk.nickname := by
  exact ⟨⟨rfl, rfl⟩, by decide, by decide, by decide⟩

/-- C5 amended: a callback whose `status` is not `"ok"` or whose access
token is absent (falsy) is answered with the client-error status and no
internal state changes; a valid callback whose supplied expiry parses as
a decimal integer (or is absent, defaulting to `now + 86400`) fully
overwrites the credential with the supplied tokens and expiry, persists
it, and is answered with success — and the admin notification naming the
nickname plus the immediate poll cycle happen iff the configured channel
is found. -/
theorem handle_oauth_callback_contract (bot : BotState) (q : CallbackQuery)
    (cf : Bool) (now : Int) :
    (q.status ≠ some (str "ok") ∨ tokTruthy q.access_token = false →
        handle_oauth_callback bot q cf now
          = ⟨.failed400, bot.auth, bot.last_active_reserves, false, none, false⟩)
    ∧ (∀ v : Nat, q.status = some (str "ok") → tokTruthy q.access_token = true →
        tokTruthy q.expires_at = true → pyInt? (q.expires_at.getD []) = some v →
        handle_oauth_callback bot q cf now
          = ⟨.success q.nickname, ⟨q.access_token, q.refresh_token, some (v : Int)⟩,
             bot.last_active_reserves, true,
             if cf then some (authorizedMsg q.nickname) else none, cf⟩)
    ∧ (q.status = some (str "ok") → tokTruthy q.access_token = true →
        tokTruthy q.expires_at = false →
        handle_oauth_callback bot q cf now
          = ⟨.success q.nickname, ⟨q.access_token, q.refresh_token, some (now + 86400)⟩,
             bot.last_active_reserves, true,
             if cf then some (authorizedMsg q.nickname) else none, cf⟩) := by
  refine ⟨?_, ?_, ?_⟩
  · intro hbad
    unfold handle_oauth_callback
    rw [if_pos hbad]
  · intro v hs ht hexp hv
    unfold handle_oauth_callback
    rw [if_neg (by simp [hs, ht]), if_pos hexp, hv]
  · intro hs ht hexp
    unfold handle_oauth_callback
    rw [if_neg (by simp [hs, ht]), if_neg (by simp [hexp])]

/-- C5 amended witness: the valid callback with the channel found:
credential overwritten with expiry 1000, saved, notification and poll
both happen. -/
theorem handle_oauth_callback_contract_witness :
    handle_oauth_callback ⟨⟨none, none, none⟩, ∅⟩ qOk true 0
      = ⟨.success qOk.nickname,
         ⟨qOk.access_token, qOk.refresh_token, some ((1000 : Nat) : Int)⟩,
         ∅, true, if true then some (authorizedMsg qOk.nickname) else none, true⟩ :=
  (handle_oauth_callback_contract ⟨⟨none, none, none⟩, ∅⟩ qOk true 0).2.1 1000
    rfl (by decide) (by decide) (by decide)

lemma mem_ite_singleton {α : Type} (c : Prop) [Decidable c] (a x : α) :
    x ∈ (if c then [a] else []) ↔ c ∧ x = a := by
  by_cases h : c <;> simp [h]

lemma mem_authEvents_iff {cfg : BotConfig} {st : BotState} {now : Int}
    {rresp : RefreshResponse} (x : Event) :
    x ∈ authEvents cfg st now rresp
      ↔ ((numTruthy st.auth.expires_at = true ∧ st.auth.expires_at.getD 0 - now < 86400)
            ∧ x = Event.adminExpiryWarn (start_oauth_flow cfg))
        ∨ ((get_valid_token st.auth now rresp).persisted = true ∧ x = Event.tokenSave) := by
  unfold authEvents
  rw [List.mem_append, mem_ite_singleton, mem_ite_singleton]

lemma authEvents_mem {cfg : BotConfig} {st : BotState} {now : Int}
    {rresp : RefreshResponse} {x : Event} (hx : x ∈ authEvents cfg st now rresp) :
    x = Event.adminExpiryWarn (start_oauth_flow cfg) ∨ x = Event.tokenSave := by
  rcases (mem_authEvents_iff x).mp hx with ⟨-, h⟩ | ⟨-, h⟩
  · exact Or.inl h
  · exact Or.inr h

/-- Characterization of a cycle that ends at the token check. -/
lemma cycle_reauth_eq {cfg : BotConfig} {st : BotState} {now : Int}
    {rresp : RefreshResponse} (fetch : FetchOutcome) (cf sendOk : Bool)
    (h : tokTruthy (get_valid_token st.auth now rresp).token = false) :
    fetch_and_post_reserves cfg st now rresp fetch cf sendOk
      = (⟨(get_valid_token st.auth now rresp).auth, st.last_active_reserves⟩,
         authEvents cfg st now rresp
           ++ [Event.adminNeedsReauth (start_oauth_flow cfg)]) := by
  simp only [fetch_and_post_reserves]
  rw [if_pos h]

/-- Characterization of a cycle whose snapshot request raises. -/
lemma cycle_fetch_raise_eq {cfg : BotConfig} {st : BotState} {now : Int}
    {rresp : RefreshResponse} {res1 : Finset Str} {cleaned : Bool}
    (cf sendOk : Bool)
    (htok : tokTruthy (get_valid_token st.auth now rresp).token = true)
    (hclean : cleanup_expired_reserves st.last_active_reserves now = some (res1, cleaned))
    (fetch : FetchOutcome)
    (hbad : fetch = FetchOutcome.transportError ∨ fetch = FetchOutcome.badJson) :
    fetch_and_post_reserves cfg st now rresp fetch cf sendOk
      = (⟨(get_valid_token st.auth now rresp).auth, res1⟩,
         authEvents cfg st now rresp
           ++ (if cleaned = true then [Event.reserveSaveCleanup] else [])
           ++ [Event.logError]) := by
  simp only [fetch_and_post_reserves]
  rw [if_neg (by simp [htok]), hclean]
  rcases hbad with rfl | rfl <;> rfl

/-- Characterization of a cycle whose snapshot response is not a 200
with a `"data"` field: it ends silently. -/
lemma cycle_fetch_skip_eq {cfg : BotConfig} {st : BotState} {now : Int}
    {rresp : RefreshResponse} {res1 : Finset Str} {cleaned : Bool}
    (cf sendOk : Bool)
    (htok : tokTruthy (get_valid_token st.auth now rresp).token = true)
    (hclean : cleanup_expired_reserves st.last_active_reserves now = some (res1, cleaned))
    (code : Nat) (hasData : Bool) (reserves : List Reserve)
    (hskip : ¬(code = 200 ∧ hasData = true)) :
    fetch_and_post_reserves cfg st now rresp (.response code hasData reserves) cf sendOk
      = (⟨(get_valid_token st.auth now rresp).auth, res1⟩,
         authEvents cfg st now rresp
           ++ (if cleaned = true then [Event.reserveSaveCleanup] else [])) := by
  simp only [fetch_and_post_reserves]
  rw [if_neg (by simp [htok]), hclean]
  dsimp only
  rw [if_neg hskip]

/-- Characterization of a cycle that reaches the diff step. -/
lemma cycle_success_eq {cfg : BotConfig} {st : BotState} {now : Int}
    {rresp : RefreshResponse} {res1 : Finset Str} {cleaned : Bool}
    {reserves : List Reserve} {current : Finset Str} {newly : List (Str × StockInfo)}
    (cf sendOk : Bool)
    (htok : tokTruthy (get_valid_token st.auth now rresp).token = true)
    (hclean : cleanup_expired_reserves st.last_active_reserves now = some (res1, cleaned))
    (hdiff : diff res1 reserves = some (current, newly)) :
    fetch_and_post_reserves cfg st now rresp (.response 200 true reserves) cf sendOk
      = (⟨(get_valid_token st.auth now rresp).auth,
          if current ≠ res1 then current else res1⟩,
         authEvents cfg st now rresp
           ++ (if cleaned = true then [Event.reserveSaveCleanup] else [])
           ++ (if current ≠ res1 then [Event.reserveSaveDiff] else [])
           ++ (if newly ≠ [] then
                 (if cf then (if sendOk then [Event.announce newly] else [Event.logError])
                  else [])
               else [])) := by
  simp only [fetch_and_post_reserves]
  rw [if_neg (by simp [htok]), hclean]
  dsimp only
  rw [if_pos (by simp), hdiff]
  dsimp only
  by_cases hcur : current ≠ res1 <;> by_cases hn : newly ≠ [] <;>
    cases cf <;> cases sendOk <;>
      simp [hcur, hn]

/-- C7: when `get_valid_token` yields no (truthy) token, the cycle sends
the needs-reauthorization admin message carrying an authorization URL
and ends without touching reserve state: the announced-reserve set is
returned unchanged and no cleanup write, diff write, announcement or
error log occurs (cleanup is never reached). -/
theorem reauth_frame (cfg : BotConfig) (st : BotState) (now : Int)
    (rresp : RefreshResponse) (fetch : FetchOutcome) (cf sendOk : Bool)
    (h : tokTruthy (get_valid_token st.auth now rresp).token = false) :
    (fetch_and_post_reserves cfg st now rresp fetch cf sendOk).1.last_active_reserves
        = st.last_active_reserves
    ∧ Event.adminNeedsReauth (start_oauth_flow cfg)
        ∈ (fetch_and_post_reserves cfg st now rresp fetch cf sendOk).2
    ∧ Event.reserveSaveCleanup
        ∉ (fetch_and_post_reserves cfg st now rresp fetch cf sendOk).2
    ∧ Event.reserveSaveDiff
        ∉ (fetch_and_post_reserves cfg st now rresp fetch cf sendOk).2
    ∧ (∀ l, Event.announce l
        ∉ (fetch_and_post_reserves cfg st now rresp fetch cf sendOk).2)
    ∧ Event.logError
        ∉ (fetch_and_post_reserves cfg st now rresp fetch cf sendOk).2 := by
  rw [cycle_reauth_eq fetch cf sendOk h]
  refine ⟨rfl, by simp, ?_, ?_, fun l => ?_, ?_⟩ <;>
    simp [List.mem_append, mem_authEvents_iff]

/-- C7 witness: a bot with no credential at all: the reauthorization
message is emitted and the reserve set stays untouched. -/
theorem reauth_frame_witness :
    (fetch_and_post_reserves cfg0 ⟨⟨none, none, none⟩, ∅⟩ 0 .errStatus
        .transportError true true).1.last_active_reserves = ∅
    ∧ Event.adminNeedsReauth (start_oauth_flow cfg0)
        ∈ (fetch_and_post_reserves cfg0 ⟨⟨none, none, none⟩, ∅⟩ 0 .errStatus
            .transportError true true).2
    ∧ Event.logError
        ∉ (fetch_and_post_reserves cfg0 ⟨⟨none, none, none⟩, ∅⟩ 0 .errStatus
            .transportError true true).2 :=
  ⟨(reauth_frame cfg0 ⟨⟨none, none, none⟩, ∅⟩ 0 .errStatus .transportError true true
      (by decide)).1,
   (reauth_frame cfg0 ⟨⟨none, none, none⟩, ∅⟩ 0 .errStatus .transportError true true
      (by decide)).2.1,
   (reauth_frame cfg0 ⟨⟨none, none, none⟩, ∅⟩ 0 .errStatus .transportError true true
      (by decide)).2.2.2.2.2⟩

/-- C6: write-on-change — in a cycle that reaches the diff step, the
reserve state file is written at the diff step iff `currentActive`
differs (as a `Finset`, so order-independently) from the post-cleanup
previous state, in which case the new in-memory state is
`currentActive`; and the cleanup step writes the file iff it removed at
least one id, i.e. iff it changed the set. -/
theorem persist_write_on_change (cfg : BotConfig) (st : BotState) (now : Int)
    (rresp : RefreshResponse) (cf sendOk : Bool) (res1 : Finset Str) (cleaned : Bool)
    (reserves : List Reserve) (current : Finset Str) (newly : List (Str × StockInfo))
    (htok : tokTruthy (get_valid_token st.auth now rresp).token = true)
    (hclean : cleanup_expired_reserves st.last_active_reserves now = some (res1, cleaned))
    (hdiff : diff res1 reserves = some (current, newly)) :
    (Event.reserveSaveDiff
        ∈ (fetch_and_post_reserves cfg st now rresp (.response 200 true reserves)
            cf sendOk).2
      ↔ current ≠ res1)
    ∧ (Event.reserveSaveCleanup
        ∈ (fetch_and_post_reserves cfg st now rresp (.response 200 true reserves)
            cf sendOk).2
      ↔ cleaned = true)
    ∧ (cleaned = true ↔ res1 ≠ st.last_active_reserves)
    ∧ (current ≠ res1 →
        (fetch_and_post_reserves cfg st now rresp (.response 200 true reserves)
          cf sendOk).1.last_active_reserves = current)
    ∧ (current = res1 →
        (fetch_and_post_reserves cfg st now rresp (.response 200 true reserves)
          cf sendOk).1.last_active_reserves = res1) := by
  rw [cycle_success_eq cf sendOk htok hclean hdiff]
  have hc3 := cleanup_save_iff_changed hclean
  by_cases hcur : current ≠ res1 <;> by_cases hn : newly ≠ [] <;>
    cases cf <;> cases sendOk <;>
      simp [mem_authEvents_iff, mem_ite_singleton, hcur, hn, hc3]

/-- C6 witness: cleanup removes the stale `"Old_1"` (writing the file),
the diff finds `"Gold_1000"` new (writing the file), and the new
in-memory state is exactly the current active set. -/
theorem persist_write_on_change_witness :
    (Event.reserveSaveDiff
        ∈ (fetch_and_post_reserves cfg0 stPoll 9000 .errStatus
            (.response 200 true [rGold]) true true).2
      ↔ ({mkReserveId (str "Gold") 1000} : Finset Str) ≠ ∅)
    ∧ (fetch_and_post_reserves cfg0 stPoll 9000 .errStatus
        (.response 200 true [rGold]) true true).1.last_active_reserves
        = {mkReserveId (str "Gold") 1000} :=
  ⟨(persist_write_on_change cfg0 stPoll 9000 .errStatus true true ∅ true [rGold]
      {mkReserveId (str "Gold") 1000} [(str "Gold", siGold)]
      (by decide) (by decide) (by decide)).1,
   (persist_write_on_change cfg0 stPoll 9000 .errStatus true true ∅ true [rGold]
      {mkReserveId (str "Gold") 1000} [(str "Gold", siGold)]
      (by decide) (by decide) (by decide)).2.2.2.1 (by decide)⟩

/-- C8 counterexample: with a fresh token and an empty state, a snapshot
response with HTTP status 500 and a JSON body ends the cycle with *no*
events at all — in particular nothing is logged, contradicting the
claim that any non-2xx response aborts the cycle *after logging*. -/
theorem non_ok_response_silent :
    fetch_and_post_reserves cfg0 st8 1000 .errStatus (.response 500 true []) true true
      = (st8, [])
    ∧ Event.logError
        ∉ (fetch_and_post_reserves cfg0 st8 1000 .errStatus (.response 500 true [])
            true true).2 := by
  exact ⟨by decide, by decide⟩

/-- C8 amended: no error in the polling path propagates out of a cycle
(the cycle function always returns a state and event list, exceptions
becoming a single `logError` at the cycle boundary).  With a valid token
and a clean cleanup step: a raised transport/JSON error ends the cycle
with a logged error, while a response that is not a 200-with-data ends
it silently without logging; in both cases there is no retry, no diff
write, and no announcement, and the state keeps only cleanup's effect. -/
theorem cycle_error_containment (cfg : BotConfig) (st : BotState) (now : Int)
    (rresp : RefreshResponse) (cf sendOk : Bool) (res1 : Finset Str) (cleaned : Bool)
    (htok : tokTruthy (get_valid_token st.auth now rresp).token = true)
    (hclean : cleanup_expired_reserves st.last_active_reserves now = some (res1, cleaned)) :
    (∀ fetch, (fetch = FetchOutcome.transportError ∨ fetch = FetchOutcome.badJson) →
        (fetch_and_post_reserves cfg st now rresp fetch cf sendOk).1
            = ⟨(get_valid_token st.auth now rresp).auth, res1⟩
        ∧ Event.logError ∈ (fetch_and_post_reserves cfg st now rresp fetch cf sendOk).2
        ∧ (∀ l, Event.announce l
            ∉ (fetch_and_post_reserves cfg st now rresp fetch cf sendOk).2)
        ∧ Event.reserveSaveDiff
            ∉ (fetch_and_post_reserves cfg st now rresp fetch cf sendOk).2)
    ∧ (∀ (code : Nat) (hasData : Bool) (reserves : List Reserve),
        ¬(code = 200 ∧ hasData = true) →
        (fetch_and_post_reserves cfg st now rresp (.response code hasData reserves)
            cf sendOk).1
            = ⟨(get_valid_token st.auth now rresp).auth, res1⟩
        ∧ Event.logError
            ∉ (fetch_and_post_reserves cfg st now rresp (.response code hasData reserves)
                cf sendOk).2
        ∧ (∀ l, Event.announce l
            ∉ (fetch_and_post_reserves cfg st now rresp (.response code hasData reserves)
                cf sendOk).2)
        ∧ Event.reserveSaveDiff
            ∉ (fetch_and_post_reserves cfg st now rresp (.response code hasData reserves)
                cf sendOk).2) := by
  constructor
  · intro fetch hbad
    rw [cycle_fetch_raise_eq cf sendOk htok hclean fetch hbad]
    refine ⟨rfl, by simp, fun l => ?_, ?_⟩ <;>
      simp [List.mem_append, mem_authEvents_iff, mem_ite_singleton]
  · intro code hasData reserves hskip
    rw [cycle_fetch_skip_eq cf sendOk htok hclean code hasData reserves hskip]
    refine ⟨rfl, ?_, fun l => ?_, ?_⟩ <;>
      simp [List.mem_append, mem_authEvents_iff, mem_ite_singleton]

/-- C8 amended witness: a transport error is contained and logged; a 500
JSON response is contained and not logged. -/
theorem cycle_error_containment_witness :
    (fetch_and_post_reserves cfg0 stPoll 9000 .errStatus .transportError true true).1
        = ⟨(get_valid_token stPoll.auth 9000 .errStatus).auth, ∅⟩
    ∧ Event.logError
        ∈ (fetch_and_post_reserves cfg0 stPoll 9000 .errStatus .transportError
            true true).2
    ∧ Event.logError
        ∉ (fetch_and_post_reserves cfg0 stPoll 9000 .errStatus (.response 500 true [])
            true true).2 :=
  ⟨((cycle_error_containment cfg0 stPoll 9000 .errStatus true true ∅ true
      (by decide) (by decide)).1 .transportError (Or.inl rfl)).1,
   ((cycle_error_containment cfg0 stPoll 9000 .errStatus true true ∅ true
      (by decide) (by decide)).1 .transportError (Or.inl rfl)).2.1,
   ((cycle_error_containment cfg0 stPoll 9000 .errStatus true true ∅ true
      (by decide) (by decide)).2 500 true [] (by decide)).2.1⟩
